import Mathlib

/-!
Verification of the epson-proxy receipt-printer proxy (Go).

The development shallowly embeds the core of the repository:

* the bounded retry-with-reconnect loop `withRetry` (src/main.go lines
  541-588; the repository's test suite, src/printer.go lines 624-814,
  pins this revision, which guards the sleep/reopen step with
  `i < maxRetries-1` and reads the `retryDelay` field those tests set);
* the protocol encoder `center` / `PrintGraphics` / `Cut` together with
  the byte-level command constants (src/main.go lines 625-781,
  src/printer.go lines 22-26);
* the streaming EPOS XML instruction parser `Parse`
  (src/unnamed/part_001 lines 36-135, the revision matching the
  `retryDelay`-era printer code; src/epson_parser.go holds an older
  revision of the same function);
* the two transport writers `UsbWriter` / `TcpWriter`
  (src/unnamed/part_002 lines 19-157).

Modelling conventions:

* Go `int` values are embedded as `Int`; Go's `/` (truncation toward
  zero) is `Int.tdiv`, Go's `x & 0xFF` on an `int` is `x % 256`
  (Euclidean remainder), and Go's arithmetic shift `x >> 8` is
  `Int.fdiv x 256`.
* Bytes are `Nat` values (always below 256 where the code produces
  them); byte buffers are `List Nat`.
* Effectful calls into the transport (`fn()`, `Open`, `WriteRaw`,
  `os.OpenFile`, `net.Dial`) are driven by explicit result oracles, and
  the calls the code makes are recorded in event lists / write logs so
  that counts and payload sequences can be stated.
* `log.Printf` calls and the mutexes of the writers are not modelled
  (pure logging; all modelled executions are single-threaded).
* Go runtime panics (negative slice bounds) are outside the model; the
  theorems about `PrintGraphics` therefore carry nonnegativity
  hypotheses on the dimensions involved.
-/

namespace EpsonProxy

/-- The observable transport-lifecycle events of one `withRetry` run:
`call` is an invocation of the wrapped operation `fn`, `closeConn` a
`p.connection.Close()` call, `sleep` a `time.Sleep(p.retryDelay)` call,
and `reopen` a `p.connection.Open()` call (counted whether or not the
reopen succeeds, matching the mock counters of the repository's tests). -/
inductive RetryEvent where
  | call
  | closeConn
  | sleep
  | reopen
deriving DecidableEq, Repr

/-- After a failed attempt with error `e` and result `r`, the values of the
Go variables `result`/`err` entering the next iteration: a failed reopen
(`o = some oe`) overwrites `err` with the reopen error, a successful reopen
leaves the operation's error in place. -/
def nextErr {T E : Type} (r : T) (e : E) (o : Option E) : T × Option E :=
  match o with
  | some oe => (r, some oe)
  | none => (r, some e)

/-- Loop body of `withRetry` (src/main.go lines 547-584), recursing on the
number `rem` of attempts still allowed; `i` is the Go loop index, `s` the
state threaded through the wrapped operation (the write log of the
transport for the printer operations), and `acc` the current values of the
Go variables `result`/`err`.  `fn i s` returns the result/error pair of the
`i`-th invocation of the wrapped operation plus the updated state, and
`openRes i` the error of the reopen attempted after the `i`-th failure
(`none` = success).  On failure the connection is closed (close errors are
logged and ignored by the code, so only the call itself is recorded), and
only when this was not the final allowed attempt (`rem ≠ 0` after the
current one, mirroring `i < maxRetries-1`) the loop sleeps and reopens; a
failed reopen replaces the current error (`nextErr`) and the loop
continues. -/
def withRetryAux {T E σ : Type} (fn : Nat → σ → (T × Option E) × σ)
    (openRes : Nat → Option E) :
    Nat → Nat → σ → T × Option E → ((T × Option E) × σ) × List RetryEvent
  | _i, 0, s, acc => ((acc, s), [])
  | i, rem + 1, s, _acc =>
    match fn i s with
    | ((r, none), s1) => (((r, none), s1), [RetryEvent.call])
    | ((r, some e), s1) =>
      if rem = 0 then
        (((r, some e), s1), [RetryEvent.call, RetryEvent.closeConn])
      else
        let res := withRetryAux fn openRes (i + 1) rem s1 (nextErr r e (openRes i))
        (res.1, RetryEvent.call :: RetryEvent.closeConn ::
          RetryEvent.sleep :: RetryEvent.reopen :: res.2)

/-- `withRetry` (src/main.go lines 541-588): run at most `maxRetries`
attempts starting from loop index 0; `init` is the zero value of the Go
result variable `result` and `s0` the initial transport state. -/
def withRetry {T E σ : Type} (fn : Nat → σ → (T × Option E) × σ)
    (openRes : Nat → Option E) (maxRetries : Nat) (init : T) (s0 : σ) :
    ((T × Option E) × σ) × List RetryEvent :=
  withRetryAux fn openRes 0 maxRetries s0 (init, none)

/-- `withRetry` specialised to an operation with no observable transport
state (the shape used by the tests of src/printer.go, where `fn` is an
arbitrary closure): the result/error pair together with the event trace. -/
def runRetry {T E : Type} (f : Nat → T × Option E) (openRes : Nat → Option E)
    (init : T) (maxRetries : Nat) : (T × Option E) × List RetryEvent :=
  let out := withRetry (fun i (_ : Unit) => (f i, ())) openRes maxRetries init ()
  (out.1.1, out.2)

/-- The event trace of a run whose first `k` attempts fail with a
non-final failure each time: `k` full close/sleep/reopen cycles. -/
def cycleTrace (k : Nat) : List RetryEvent :=
  (List.replicate k [RetryEvent.call, RetryEvent.closeConn,
    RetryEvent.sleep, RetryEvent.reopen]).flatten

theorem cycleTrace_succ (k : Nat) :
    cycleTrace (k + 1) = RetryEvent.call :: RetryEvent.closeConn ::
      RetryEvent.sleep :: RetryEvent.reopen :: cycleTrace k := by
  simp [cycleTrace, List.replicate_succ]

theorem cycleTrace_count_call (k : Nat) :
    (cycleTrace k).count RetryEvent.call = k := by
  induction k with
  | zero => rfl
  | succ n ih => rw [cycleTrace_succ]; simp [List.count_cons, ih]

theorem cycleTrace_count_closeConn (k : Nat) :
    (cycleTrace k).count RetryEvent.closeConn = k := by
  induction k with
  | zero => rfl
  | succ n ih => rw [cycleTrace_succ]; simp [List.count_cons, ih]

theorem cycleTrace_count_sleep (k : Nat) :
    (cycleTrace k).count RetryEvent.sleep = k := by
  induction k with
  | zero => rfl
  | succ n ih => rw [cycleTrace_succ]; simp [List.count_cons, ih]

theorem cycleTrace_count_reopen (k : Nat) :
    (cycleTrace k).count RetryEvent.reopen = k := by
  induction k with
  | zero => rfl
  | succ n ih => rw [cycleTrace_succ]; simp [List.count_cons, ih]

/-- A run over `rem ≥ 1` attempts in which every attempt fails returns the
result/error pair of the final attempt, and its trace is `rem - 1` full
cycles followed by the final call-and-close. -/
theorem withRetryAux_all_fail {T E : Type} (f : Nat → T × Option E)
    (openRes : Nat → Option E) :
    ∀ (rem i : Nat) (acc : T × Option E), 1 ≤ rem →
      (∀ j, j < rem → ((f (i + j)).2).isSome = true) →
      withRetryAux (fun k (_ : Unit) => (f k, ())) openRes i rem () acc =
        ((f (i + rem - 1), ()),
          cycleTrace (rem - 1) ++ [RetryEvent.call, RetryEvent.closeConn]) := by
  intro rem
  induction rem with
  | zero => intro i acc h; omega
  | succ n ih =>
    intro i acc _ hfail
    have h0 : ((f i).2).isSome = true := by
      have := hfail 0 (Nat.succ_pos n); simpa using this
    obtain ⟨e, he⟩ := Option.isSome_iff_exists.mp h0
    rcases hf : f i with ⟨r, e?⟩
    rw [hf] at he
    subst he
    rcases Nat.eq_zero_or_pos n with hn | hn
    · subst hn
      simp [withRetryAux, hf, cycleTrace]
    · have hn' : ¬ n = 0 := by omega
      have harg : ∀ j, j < n → ((f (i + 1 + j)).2).isSome = true := by
        intro j hj
        have := hfail (j + 1) (by omega)
        have harith : i + (j + 1) = i + 1 + j := by omega
        rwa [harith] at this
      have hrec := ih (i + 1) (nextErr r e (openRes i)) hn harg
      have hc : cycleTrace n = RetryEvent.call :: RetryEvent.closeConn ::
          RetryEvent.sleep :: RetryEvent.reopen :: cycleTrace (n - 1) := by
        conv_lhs => rw [show n = (n - 1) + 1 by omega]
        rw [cycleTrace_succ]
      have harith2 : i + 1 + n - 1 = i + (n + 1) - 1 := by omega
      simp only [withRetryAux, hf, hn', if_false, hrec, harith2,
        Nat.add_sub_cancel, hc]
      simp

/-- A run over `rem` attempts whose attempts `0, …, k-1` (relative to the
start index) fail and whose attempt `k` succeeds (`k < rem`) returns the
successful result after `k` full cycles and one final call. -/
theorem withRetryAux_succeeds {T E : Type} (f : Nat → T × Option E)
    (openRes : Nat → Option E) :
    ∀ (k rem i : Nat) (acc : T × Option E), k < rem →
      (∀ j, j < k → ((f (i + j)).2).isSome = true) →
      ((f (i + k)).2) = none →
      withRetryAux (fun m (_ : Unit) => (f m, ())) openRes i rem () acc =
        ((((f (i + k)).1, none), ()), cycleTrace k ++ [RetryEvent.call]) := by
  intro k
  induction k with
  | zero =>
    intro rem i acc hk hfail hsucc
    obtain ⟨n, rfl⟩ : ∃ n, rem = n + 1 := ⟨rem - 1, by omega⟩
    rcases hf : f i with ⟨r, e?⟩
    have : e? = none := by
      have := hsucc; rw [Nat.add_zero, hf] at this; exact this
    subst this
    simp [withRetryAux, cycleTrace, hf, Nat.add_zero]
  | succ m ih =>
    intro rem i acc hk hfail hsucc
    obtain ⟨n, rfl⟩ : ∃ n, rem = n + 1 := ⟨rem - 1, by omega⟩
    have h0 : ((f i).2).isSome = true := by
      have := hfail 0 (Nat.succ_pos m); simpa using this
    obtain ⟨e, he⟩ := Option.isSome_iff_exists.mp h0
    rcases hf : f i with ⟨r, e?⟩
    rw [hf] at he
    subst he
    have hn' : ¬ n = 0 := by omega
    have harg : ∀ j, j < m → ((f (i + 1 + j)).2).isSome = true := by
      intro j hj
      have := hfail (j + 1) (by omega)
      have harith : i + (j + 1) = i + 1 + j := by omega
      rwa [harith] at this
    have hsucc' : ((f (i + 1 + m)).2) = none := by
      have harith : i + (m + 1) = i + 1 + m := by omega
      rwa [harith] at hsucc
    have hrec := ih n (i + 1) (nextErr r e (openRes i)) (by omega) harg hsucc'
    have harith3 : i + 1 + m = i + (m + 1) := by omega
    rw [harith3] at hrec
    simp only [withRetryAux, hf, hn', if_false, hrec, cycleTrace_succ]
    simp

/-- Claim C1: for every operation `fn` that fails on all attempts and every
attempt budget `N ≥ 1`, `withRetry(p, N, fn)` invokes `fn` exactly `N`
times, closes the printer's transport exactly `N` times, reopens it exactly
`N - 1` times (no reopen and no retry-delay sleep after the final failed
attempt), and returns the last observed error (the result/error pair of the
final invocation of `fn`). -/
theorem c1_withRetry_all_attempts_fail {T E : Type} (f : Nat → T × Option E)
    (openRes : Nat → Option E) (init : T) (N : Nat) (hN : 1 ≤ N)
    (hfail : ∀ i, i < N → ((f i).2).isSome = true) :
    (runRetry f openRes init N).1 = f (N - 1) ∧
    ((runRetry f openRes init N).2).count RetryEvent.call = N ∧
    ((runRetry f openRes init N).2).count RetryEvent.closeConn = N ∧
    ((runRetry f openRes init N).2).count RetryEvent.reopen = N - 1 ∧
    ((runRetry f openRes init N).2).count RetryEvent.sleep = N - 1 := by
  have h := withRetryAux_all_fail f openRes N 0 (init, none) hN
    (by intro j hj; simpa using hfail j hj)
  have hzero : (0 : Nat) + N - 1 = N - 1 := by omega
  rw [hzero] at h
  unfold runRetry withRetry
  rw [h]
  refine ⟨rfl, ?_, ?_, ?_, ?_⟩ <;>
    simp [List.count_append, cycleTrace_count_call, cycleTrace_count_closeConn,
      cycleTrace_count_reopen, cycleTrace_count_sleep, List.count_cons] <;>
    omega

/-- Witness for C1: an always-failing operation with budget 2 gives exactly
2 invocations, 2 closes, 1 reopen, 1 sleep, and the last error. -/
theorem c1_witness :
    (runRetry (fun _ : Nat => ((0 : Nat), some ("write failed")))
      (fun _ => (none : Option String)) 0 2).1 = (0, some ("write failed")) ∧
    ((runRetry (fun _ : Nat => ((0 : Nat), some ("write failed")))
      (fun _ => (none : Option String)) 0 2).2).count RetryEvent.call = 2 ∧
    ((runRetry (fun _ : Nat => ((0 : Nat), some ("write failed")))
      (fun _ => (none : Option String)) 0 2).2).count RetryEvent.closeConn = 2 ∧
    ((runRetry (fun _ : Nat => ((0 : Nat), some ("write failed")))
      (fun _ => (none : Option String)) 0 2).2).count RetryEvent.reopen = 1 ∧
    ((runRetry (fun _ : Nat => ((0 : Nat), some ("write failed")))
      (fun _ => (none : Option String)) 0 2).2).count RetryEvent.sleep = 1 :=
  c1_withRetry_all_attempts_fail
    (fun _ => ((0 : Nat), some ("write failed"))) (fun _ => none) 0 2
    (by omega) (fun _ _ => rfl)

/-- Claim C7: for every operation `fn` that succeeds on attempt `k` of an
allowed budget `N` (`1 ≤ k ≤ N`, all earlier attempts failing),
`withRetry(p, N, fn)` returns `fn`'s successful result immediately after
the `k`-th invocation, with exactly `k` invocations, `k - 1` close calls,
`k - 1` reopen calls and `k - 1` retry-delay sleeps — no close or reopen
occurs after the successful attempt. -/
theorem c7_withRetry_succeeds_mid_budget {T E : Type} (f : Nat → T × Option E)
    (openRes : Nat → Option E) (init : T) (N k : Nat) (hk : 1 ≤ k)
    (hkN : k ≤ N) (hfail : ∀ i, i < k - 1 → ((f i).2).isSome = true)
    (hsucc : ((f (k - 1)).2) = none) :
    (runRetry f openRes init N).1 = ((f (k - 1)).1, none) ∧
    ((runRetry f openRes init N).2).count RetryEvent.call = k ∧
    ((runRetry f openRes init N).2).count RetryEvent.closeConn = k - 1 ∧
    ((runRetry f openRes init N).2).count RetryEvent.reopen = k - 1 ∧
    ((runRetry f openRes init N).2).count RetryEvent.sleep = k - 1 := by
  have h := withRetryAux_succeeds f openRes (k - 1) N 0 (init, none)
    (by omega) (by intro j hj; simpa using hfail j hj) (by simpa using hsucc)
  have hzero : (0 : Nat) + (k - 1) = k - 1 := by omega
  rw [hzero] at h
  unfold runRetry withRetry
  rw [h]
  refine ⟨rfl, ?_, ?_, ?_, ?_⟩ <;>
    simp [List.count_append, cycleTrace_count_call, cycleTrace_count_closeConn,
      cycleTrace_count_reopen, cycleTrace_count_sleep, List.count_cons] <;>
    omega

/-- Witness for C7: success on the 3rd of 5 allowed attempts gives exactly
3 invocations, 2 closes, 2 reopens and the successful result. -/
theorem c7_witness :
    (runRetry (fun i : Nat => if i < 2 then ((0 : Nat), some ("write failed"))
        else (42, none)) (fun _ => (none : Option String)) 0 5).1 =
      (42, none) ∧
    ((runRetry (fun i : Nat => if i < 2 then ((0 : Nat), some ("write failed"))
        else (42, none)) (fun _ => (none : Option String)) 0 5).2).count
      RetryEvent.call = 3 ∧
    ((runRetry (fun i : Nat => if i < 2 then ((0 : Nat), some ("write failed"))
        else (42, none)) (fun _ => (none : Option String)) 0 5).2).count
      RetryEvent.closeConn = 2 ∧
    ((runRetry (fun i : Nat => if i < 2 then ((0 : Nat), some ("write failed"))
        else (42, none)) (fun _ => (none : Option String)) 0 5).2).count
      RetryEvent.reopen = 2 ∧
    ((runRetry (fun i : Nat => if i < 2 then ((0 : Nat), some ("write failed"))
        else (42, none)) (fun _ => (none : Option String)) 0 5).2).count
      RetryEvent.sleep = 2 :=
  c7_withRetry_succeeds_mid_budget
    (fun i => if i < 2 then ((0 : Nat), some ("write failed")) else (42, none))
    (fun _ => none) 0 5 3 (by omega) (by omega)
    (fun i hi => by
      have h2 : i < 2 := by omega
      simp [h2])
    (by norm_num)

/-- `CUT_CMD` (src/printer.go line 22): `{0x1d, 'V', 0x00}`. -/
def CUT_CMD : List Nat := [0x1d, 0x56, 0x00]

/-- `PRINT_RASTER_CMD` (src/printer.go line 23): `{0x1d, 0x76, 0x30, 0x00}`. -/
def PRINT_RASTER_CMD : List Nat := [0x1d, 0x76, 0x30, 0x00]

/-- `FEED_N_CMD` (src/printer.go lines 24-26): `{0x1b, 0x64, byte(n)}`;
`byte(n)` keeps the low 8 bits of the two's-complement value, which is the
Euclidean remainder modulo 256. -/
def FEED_N_CMD (n : Int) : List Nat := [0x1b, 0x64, (n % 256).toNat]

/-- The Go slice expression `d[a:b]` (for `0 ≤ a ≤ b`): drop `a` elements,
keep the next `b - a`. -/
def goSlice (d : List Nat) (a b : Int) : List Nat :=
  (d.drop a.toNat).take (b - a).toNat

/-- Loop body of `center` (src/main.go lines 751-777), one iteration per
row: `rem` rows remain, `y` is the Go loop index.  Each iteration checks
the defensive row bound, slices the row, and appends left padding
(`make([]byte, padding_bytes)` guarded by `padding_bytes > 0`), the row
data, and right padding (guarded by `right_padding > 0`) to `acc`. -/
def centerRows (d : List Nat) (w_b p_w_b padding_bytes : Int) :
    Nat → Nat → List Nat → Except String (List Nat)
  | 0, _y, acc => .ok acc
  | rem + 1, y, acc =>
    let row_start : Int := (y : Int) * w_b
    let row_end : Int := row_start + w_b
    if row_end > (d.length : Int) then
      .error ("center: row out of bounds at y=" ++ toString y)
    else
      let row_data := goSlice d row_start row_end
      let acc1 := if padding_bytes > 0 then
        acc ++ List.replicate padding_bytes.toNat 0 else acc
      let acc2 := acc1 ++ row_data
      let right_padding := p_w_b - w_b - padding_bytes
      let acc3 := if right_padding > 0 then
        acc2 ++ List.replicate right_padding.toNat 0 else acc2
      centerRows d w_b p_w_b padding_bytes rem (y + 1) acc3

/-- `center` (src/main.go lines 737-781): pad each of the `h` rows of the
`w_b`-bytes-per-row image `d` to `p_w_b` bytes per row.  The upfront length
check uses `expected_len = w_b * h`; the left padding is
`(p_w_b - w_b) / 2` with Go's truncating division; the loop
`for y := range h` runs `h` times when `h > 0` and not at all otherwise. -/
def center (d : List Nat) (w_b p_w_b h : Int) : Except String (List Nat) :=
  let expected_len := w_b * h
  if (d.length : Int) < expected_len then
    .error ("center: data too short: got " ++ toString d.length ++
      " bytes, need " ++ toString expected_len ++ " bytes")
  else
    centerRows d w_b p_w_b (Int.tdiv (p_w_b - w_b) 2) h.toNat 0 []

/-- One padded output row as the spec describes it, for a `n`-bytes-per-row
image with `lp` zero bytes of left padding and `rp` of right padding. -/
def paddedRow (d : List Nat) (n lp rp y : Nat) : List Nat :=
  List.replicate lp 0 ++ (d.drop (y * n)).take n ++ List.replicate rp 0

theorem goSlice_nat (d : List Nat) (a n : Nat) :
    goSlice d (a : Int) ((a : Int) + (n : Int)) = (d.drop a).take n := by
  simp [goSlice]

theorem tdiv_ofNat (a b : Nat) :
    Int.tdiv (a : Int) (b : Int) = ((a / b : Nat) : Int) := rfl

/-- The row loop of `center` succeeds on `rem` in-bounds rows and appends
exactly the padded rows, in order. -/
theorem centerRows_ok (d : List Nat) (n p : Nat) (hnp : n ≤ p) :
    ∀ (rem y : Nat) (acc : List Nat), (y + rem) * n ≤ d.length →
      centerRows d (n : Int) (p : Int) (Int.tdiv ((p : Int) - (n : Int)) 2)
          rem y acc =
        .ok (acc ++ ((List.range' y rem).map
          (paddedRow d n ((p - n) / 2) (p - n - (p - n) / 2))).flatten) := by
  have hdiff : (p : Int) - (n : Int) = ((p - n : Nat) : Int) := by omega
  have hdiv : Int.tdiv ((p : Int) - (n : Int)) 2 = (((p - n) / 2 : Nat) : Int) := by
    rw [hdiff]; exact tdiv_ofNat (p - n) 2
  intro rem
  induction rem with
  | zero => intro y acc hlen; simp [centerRows]
  | succ m ih =>
    intro y acc hlen
    have hrow : (y + 1) * n ≤ d.length := by
      calc (y + 1) * n ≤ (y + (m + 1)) * n := Nat.mul_le_mul_right n (by omega)
        _ ≤ d.length := hlen
    rw [centerRows]
    have hbound : ¬ ((y : Int) * (n : Int) + (n : Int) > (d.length : Int)) := by
      push_cast
      have : ((y + 1) * n : Nat) = y * n + n := by ring
      omega
    rw [if_neg hbound]
    have hslice : goSlice d ((y : Int) * (n : Int))
        ((y : Int) * (n : Int) + (n : Int)) = (d.drop (y * n)).take n := by
      have hcast : (y : Int) * (n : Int) = ((y * n : Nat) : Int) := by push_cast; ring
      rw [hcast, goSlice_nat]
    have hleft : (if Int.tdiv ((p : Int) - (n : Int)) 2 > 0 then
        acc ++ List.replicate (Int.tdiv ((p : Int) - (n : Int)) 2).toNat 0
        else acc) = acc ++ List.replicate ((p - n) / 2) 0 := by
      have htn : (Int.tdiv ((p : Int) - (n : Int)) 2).toNat = (p - n) / 2 := by
        rw [hdiv]; omega
      rcases Nat.eq_zero_or_pos ((p - n) / 2) with hz | hpos
      · have hc : ¬ (Int.tdiv ((p : Int) - (n : Int)) 2 > 0) := by
          rw [hdiv]; omega
        rw [if_neg hc, hz]; simp
      · have hc : Int.tdiv ((p : Int) - (n : Int)) 2 > 0 := by
          rw [hdiv]; omega
        rw [if_pos hc, htn]
    have hright : ∀ l : List Nat, (if (p : Int) - (n : Int) -
          Int.tdiv ((p : Int) - (n : Int)) 2 > 0 then
        l ++ List.replicate ((p : Int) - (n : Int) -
          Int.tdiv ((p : Int) - (n : Int)) 2).toNat 0 else l) =
        l ++ List.replicate (p - n - (p - n) / 2) 0 := by
      intro l
      have htn : ((p : Int) - (n : Int) -
          Int.tdiv ((p : Int) - (n : Int)) 2).toNat = p - n - (p - n) / 2 := by
        rw [hdiv]; omega
      rcases Nat.eq_zero_or_pos (p - n - (p - n) / 2) with hz | hpos
      · have hc : ¬ ((p : Int) - (n : Int) -
            Int.tdiv ((p : Int) - (n : Int)) 2 > 0) := by
          rw [hdiv]; omega
        rw [if_neg hc, hz]; simp
      · have hc : (p : Int) - (n : Int) -
            Int.tdiv ((p : Int) - (n : Int)) 2 > 0 := by
          rw [hdiv]; omega
        rw [if_pos hc, htn]
    have hlen2 : (y + 1 + m) * n ≤ d.length := by
      have h2 : y + 1 + m = y + (m + 1) := by omega
      rw [h2]; exact hlen
    simp only [hslice, hleft, hright]
    rw [ih (y + 1) _ hlen2]
    rw [List.range'_succ]
    simp [paddedRow, List.append_assoc]

/-- Claim C3: for every buffer `d` with `len(d) ≥ w_b * h` and
`0 ≤ w_b ≤ p_w_b` (and `h ≥ 0`), `center(d, w_b, p_w_b, h)` succeeds and
returns, for each of the `h` rows in order, `left_pad = (p_w_b - w_b) / 2`
zero bytes (floor), then that row's `w_b` data bytes, then
`right_pad = p_w_b - w_b - left_pad` zero bytes; in particular
`center({1,2,3,4}, 4, 8, 1) = {0,0,1,2,3,4,0,0}` and
`center({1,2,3}, 3, 8, 1) = {0,0,1,2,3,0,0,0}`. -/
theorem c3_center_pads_rows (d : List Nat) (w_b p_w_b h : Int)
    (hw : 0 ≤ w_b) (hwp : w_b ≤ p_w_b) (hh : 0 ≤ h)
    (hlen : w_b * h ≤ (d.length : Int)) :
    center d w_b p_w_b h = .ok (((List.range h.toNat).map
      (paddedRow d w_b.toNat ((p_w_b.toNat - w_b.toNat) / 2)
        (p_w_b.toNat - w_b.toNat - (p_w_b.toNat - w_b.toNat) / 2))).flatten) ∧
    center [1, 2, 3, 4] 4 8 1 = .ok [0, 0, 1, 2, 3, 4, 0, 0] ∧
    center [1, 2, 3] 3 8 1 = .ok [0, 0, 1, 2, 3, 0, 0, 0] := by
  refine ⟨?_, by rfl, by rfl⟩
  obtain ⟨n, rfl⟩ : ∃ n : Nat, w_b = (n : Int) := ⟨w_b.toNat, by omega⟩
  obtain ⟨p, rfl⟩ : ∃ p : Nat, p_w_b = (p : Int) := ⟨p_w_b.toNat, by omega⟩
  obtain ⟨m, rfl⟩ : ∃ m : Nat, h = (m : Int) := ⟨h.toNat, by omega⟩
  have hnp : n ≤ p := by exact_mod_cast hwp
  have h2 : (n * m : Nat) ≤ d.length := by exact_mod_cast hlen
  have hlen' : (0 + m) * n ≤ d.length := by
    calc (0 + m) * n = n * m := by ring
      _ ≤ d.length := h2
  unfold center
  rw [if_neg (by push_cast; push_cast at hlen; omega)]
  rw [Int.toNat_natCast]
  rw [centerRows_ok d n p hnp m 0 [] hlen']
  simp [List.range_eq_range', Int.toNat_natCast]

/-- Witness for C3: the concrete symmetric-padding example. -/
theorem c3_witness :
    center [1, 2, 3, 4] 4 8 1 = .ok [0, 0, 1, 2, 3, 4, 0, 0] :=
  (c3_center_pads_rows [1, 2, 3, 4] 4 8 1 (by omega) (by omega) (by omega)
    (by norm_num)).2.1

/-- As long as every remaining row ends within the buffer, the row loop of
`center` cannot fail, whatever `p_w_b` and the padding are. -/
theorem centerRows_ok_exists (d : List Nat) (w_b p_w_b pad : Int)
    (hw : 0 ≤ w_b) :
    ∀ (rem y : Nat) (acc : List Nat),
      ((y + rem : Nat) : Int) * w_b ≤ (d.length : Int) →
      ∃ out, centerRows d w_b p_w_b pad rem y acc = .ok out := by
  intro rem
  induction rem with
  | zero => intro y acc hlen; exact ⟨acc, rfl⟩
  | succ m ih =>
    intro y acc hlen
    have hrow : ((y + 1 : Nat) : Int) * w_b ≤ (d.length : Int) := by
      calc ((y + 1 : Nat) : Int) * w_b ≤ ((y + (m + 1) : Nat) : Int) * w_b := by
            apply mul_le_mul_of_nonneg_right _ hw
            exact_mod_cast Nat.add_le_add_left (Nat.succ_le_succ (Nat.zero_le m)) y
        _ ≤ (d.length : Int) := hlen
    have hbound : ¬ ((y : Int) * w_b + w_b > (d.length : Int)) := by
      have : ((y + 1 : Nat) : Int) * w_b = (y : Int) * w_b + w_b := by
        push_cast; ring
      omega
    rw [centerRows, if_neg hbound]
    exact ih (y + 1) _ (by
      have harith : ((y + 1 + m : Nat) : Int) = ((y + (m + 1) : Nat) : Int) := by
        push_cast; ring
      rw [harith]; exact hlen)

/-- Claim C10 (implicit): in `center(d, w_b, p_w_b, h)` with `w_b ≥ 0`,
whenever the upfront length check passes (`len(d) ≥ w_b * h`) the per-row
defensive bound check never fires, so `center` succeeds; and `center`
returns an error — always the upfront "data too short" one — exactly when
`len(d) < w_b * h`. -/
theorem c10_center_row_check_unreachable (d : List Nat) (w_b p_w_b h : Int)
    (hw : 0 ≤ w_b) :
    ((d.length : Int) < w_b * h →
      center d w_b p_w_b h = .error ("center: data too short: got " ++
        toString d.length ++ " bytes, need " ++ toString (w_b * h) ++
        " bytes")) ∧
    (w_b * h ≤ (d.length : Int) → ∃ out, center d w_b p_w_b h = .ok out) := by
  constructor
  · intro hshort
    unfold center
    rw [if_pos hshort]
  · intro hlong
    unfold center
    rw [if_neg (by omega)]
    apply centerRows_ok_exists d w_b p_w_b _ hw h.toNat 0 []
    rcases le_or_lt 0 h with hh | hh
    · have hcast : ((0 + h.toNat : Nat) : Int) = h := by
        rw [Nat.zero_add]; exact Int.toNat_of_nonneg hh
      rw [hcast, mul_comm]
      exact hlong
    · have h0 : h.toNat = 0 := Int.toNat_of_nonpos (le_of_lt hh)
      rw [Nat.zero_add, h0]
      simp

/-- Witness for C10: a two-row image with a negative paper width still
succeeds once the upfront length check passes. -/
theorem c10_witness : ∃ out, center [1, 2] 1 (-3) 2 = .ok out :=
  (c10_center_row_check_unreachable [1, 2] 1 (-3) 2 (by omega)).2 (by norm_num)

/-- One `WriteRaw` call against the transport: `writeRes` gives the error
of the `n`-th write overall (`none` = success) and the payload is appended
to the write log. -/
def writeRawM (writeRes : Nat → Option String) (payload : List Nat)
    (s : List (List Nat)) : Option String × List (List Nat) :=
  (writeRes s.length, s ++ [payload])

/-- `PrintGraphics` (src/main.go lines 625-683): validate the buffer
length, truncate to `required_bytes`, centre when `width <
p.receipt_width`, assemble the raster command buffer and write it with a
3-attempt retry.  The Go code also reassigns `width = p.receipt_width` in
the centring branch, but `width` is dead from that point on (only
`width_bytes` is used), so the model drops the assignment.  Returns the
final error (if any) and the log of buffers handed to `WriteRaw`. -/
def PrintGraphics (receipt_width : Int) (writeRes openRes : Nat → Option String)
    (data : List Nat) (width height : Int) : Option String × List (List Nat) :=
  let width_bytes := Int.tdiv width 8
  let required_bytes := width_bytes * height
  if (data.length : Int) < required_bytes then
    (some ("data too short: got " ++ toString data.length ++ " bytes, need " ++
      toString required_bytes ++ " bytes"), [])
  else
    let raster_data := data.take required_bytes.toNat
    let paper_width_bytes := Int.tdiv receipt_width 8
    let step : Except String (List Nat × Int) :=
      if width < receipt_width then
        match center raster_data width_bytes paper_width_bytes height with
        | .error e => .error e
        | .ok centered => .ok (centered, paper_width_bytes)
      else .ok (raster_data, width_bytes)
    match step with
    | .error e => (some e, [])
    | .ok pair =>
      let xL := (pair.2 % 256).toNat
      let xH := (Int.fdiv pair.2 256 % 256).toNat
      let yL := (height % 256).toNat
      let yH := (Int.fdiv height 256 % 256).toNat
      let buf := PRINT_RASTER_CMD ++ [xL, xH, yL, yH] ++ pair.1 ++ FEED_N_CMD 12
      let out := withRetry (fun _ s => (((), (writeRawM writeRes buf s).1),
        (writeRawM writeRes buf s).2)) openRes 3 () []
      (out.1.1.2, out.1.2)

/-- A retry loop whose operation performs exactly one `WriteRaw` of the
fixed buffer `buf` per attempt logs between 1 and `rem` copies of `buf`. -/
theorem withRetryAux_single_write (writeRes openRes : Nat → Option String)
    (buf : List Nat) :
    ∀ (rem i : Nat) (s : List (List Nat)) (acc : Unit × Option String),
      ∃ k, k ≤ rem ∧ (1 ≤ rem → 1 ≤ k) ∧
        (withRetryAux (fun _ s => (((), (writeRawM writeRes buf s).1),
          (writeRawM writeRes buf s).2)) openRes i rem s acc).1.2 =
          s ++ List.replicate k buf := by
  intro rem
  induction rem with
  | zero => intro i s acc; exact ⟨0, by omega, by omega, by simp [withRetryAux]⟩
  | succ m ih =>
    intro i s acc
    rcases hw : writeRes s.length with _ | e
    · exact ⟨1, by omega, by omega, by
        simp [withRetryAux, writeRawM, hw, List.replicate_succ]⟩
    · rcases Nat.eq_zero_or_pos m with hm | hm
      · subst hm
        exact ⟨1, by omega, by omega, by
          simp [withRetryAux, writeRawM, hw, List.replicate_succ]⟩
      · have hm' : ¬ m = 0 := by omega
        obtain ⟨k, hk, hk1, hlog⟩ := ih (i + 1) (s ++ [buf])
          (nextErr () e (openRes i))
        simp only [writeRawM] at hlog
        refine ⟨k + 1, by omega, by omega, ?_⟩
        simp only [withRetryAux, writeRawM, hw, hm', if_false]
        exact hlog.trans (show s ++ [buf] ++ List.replicate k buf =
          s ++ List.replicate (k + 1) buf by
            simp [List.replicate_succ, List.append_assoc])

/-- Claim C4: for every `PrintGraphics(data, width, height)` call with
`width ≥ receipt_width` (and nonnegative `receipt_width`, `height`): it
returns a validation error before any write when
`len(data) < (width/8)*height`; otherwise every buffer handed to
`WriteRaw` (the same single buffer on each retry attempt, and at least one
write happens) equals the 4-byte raster prefix, then `width_bytes = width/8`
and `height` as little-endian 16-bit values (low byte, high byte, each
truncated to 8 bits, wrapping above 65535), then exactly the first
`(width/8)*height` bytes of `data` (trailing bytes silently dropped), then
the feed command `{0x1B, 0x64, 12}`. -/
theorem c4_raster_buffer (receipt_width width height : Int) (data : List Nat)
    (writeRes openRes : Nat → Option String)
    (hrw : 0 ≤ receipt_width) (hh : 0 ≤ height) (hw : receipt_width ≤ width) :
    ((data.length : Int) < Int.tdiv width 8 * height →
      PrintGraphics receipt_width writeRes openRes data width height =
        (some ("data too short: got " ++ toString data.length ++
          " bytes, need " ++ toString (Int.tdiv width 8 * height) ++
          " bytes"), [])) ∧
    (Int.tdiv width 8 * height ≤ (data.length : Int) →
      (PrintGraphics receipt_width writeRes openRes data width height).2 ≠ [] ∧
      ∀ b ∈ (PrintGraphics receipt_width writeRes openRes data width height).2,
        b = [0x1d, 0x76, 0x30, 0x00] ++
          [(Int.tdiv width 8).toNat % 256, (Int.tdiv width 8).toNat / 256 % 256,
            height.toNat % 256, height.toNat / 256 % 256] ++
          data.take ((Int.tdiv width 8).toNat * height.toNat) ++
          [0x1b, 0x64, 12]) := by
  constructor
  · intro hshort
    rw [PrintGraphics, if_pos hshort]
  · intro hlong
    obtain ⟨W, rfl⟩ : ∃ n : Nat, width = (n : Int) :=
      ⟨width.toNat, by omega⟩
    obtain ⟨H, rfl⟩ : ∃ n : Nat, height = (n : Int) :=
      ⟨height.toNat, by omega⟩
    have hwb : Int.tdiv (W : Int) 8 = ((W / 8 : Nat) : Int) := by
      exact_mod_cast tdiv_ofNat W 8
    have hreq : Int.tdiv (W : Int) 8 * (H : Int) = ((W / 8 * H : Nat) : Int) := by
      rw [hwb]; push_cast; ring
    rw [hreq] at hlong
    have hnotshort : ¬ ((data.length : Int) < Int.tdiv (W : Int) 8 * (H : Int)) := by
      rw [hreq]; omega
    have hnotcenter : ¬ ((W : Int) < receipt_width) := not_lt.mpr hw
    obtain ⟨k, hk3, hk1, hlog⟩ := withRetryAux_single_write writeRes openRes
      (PRINT_RASTER_CMD ++
        [(Int.tdiv (W : Int) 8 % 256).toNat,
          (Int.fdiv (Int.tdiv (W : Int) 8) 256 % 256).toNat,
          ((H : Int) % 256).toNat, (Int.fdiv (H : Int) 256 % 256).toNat] ++
        data.take (Int.tdiv (W : Int) 8 * (H : Int)).toNat ++ FEED_N_CMD 12)
      3 0 [] ((), none)
    have hbytes1 : (Int.tdiv (W : Int) 8 % 256).toNat =
        (Int.tdiv (W : Int) 8).toNat % 256 := by rw [hwb]; omega
    have hbytes2 : (Int.fdiv (Int.tdiv (W : Int) 8) 256 % 256).toNat =
        (Int.tdiv (W : Int) 8).toNat / 256 % 256 := by
      rw [hwb, Int.fdiv_eq_ediv _ (by norm_num)]; omega
    have hbytes3 : ((H : Int) % 256).toNat = (H : Int).toNat % 256 := by omega
    have hbytes4 : (Int.fdiv (H : Int) 256 % 256).toNat =
        (H : Int).toNat / 256 % 256 := by
      rw [Int.fdiv_eq_ediv _ (by norm_num)]; omega
    have htake : (Int.tdiv (W : Int) 8 * (H : Int)).toNat =
        (Int.tdiv (W : Int) 8).toNat * (H : Int).toNat := by
      rw [hwb, ← Nat.cast_mul, Int.toNat_natCast, Int.toNat_natCast,
        Int.toNat_natCast]
    rw [PrintGraphics, if_neg hnotshort]
    simp only [if_neg hnotcenter, withRetry]
    rw [hlog]
    constructor
    · rw [List.nil_append]
      intro hcontra
      have hlenr := congrArg List.length hcontra
      rw [List.length_replicate] at hlenr
      simp at hlenr
      have := hk1 (by omega)
      omega
    · intro b hb
      rw [List.nil_append] at hb
      have hbuf := List.eq_of_mem_replicate hb
      rw [hbuf, PRINT_RASTER_CMD, FEED_N_CMD, hbytes1, hbytes2, hbytes3,
        hbytes4, htake]
      simp

/-- Witness for C4: a 16-pixel-wide, 1-row image on 16-pixel paper with one
trailing byte dropped; every written buffer is the assembled raster
command. -/
theorem c4_witness :
    (PrintGraphics 16 (fun _ => none) (fun _ => none) [1, 2, 3] 16 1).2 ≠ [] ∧
    ∀ b ∈ (PrintGraphics 16 (fun _ => none) (fun _ => none) [1, 2, 3] 16 1).2,
      b = [0x1d, 0x76, 0x30, 0x00] ++
        [(Int.tdiv 16 8).toNat % 256, (Int.tdiv 16 8).toNat / 256 % 256,
          (1 : Int).toNat % 256, (1 : Int).toNat / 256 % 256] ++
        [1, 2, 3].take ((Int.tdiv 16 8).toNat * (1 : Int).toNat) ++
        [0x1b, 0x64, 12] :=
  (c4_raster_buffer 16 16 1 [1, 2, 3] (fun _ => none) (fun _ => none)
    (by norm_num) (by norm_num) (by norm_num)).2 (by decide)

/-- The operation wrapped by `Cut` (src/main.go lines 710-726): one
`WriteRaw` of the cut bytes, and — only if that succeeded — one `WriteRaw`
of the feed(2) bytes; each failure is wrapped with the corresponding
message (`fmt.Errorf` with `%w`). -/
def cutFn (writeRes : Nat → Option String) :
    Nat → List (List Nat) → (Unit × Option String) × List (List Nat) :=
  fun _ s =>
    match writeRawM writeRes CUT_CMD s with
    | (some e, s1) => (((), some ("cut command failed: " ++ e)), s1)
    | (none, s1) =>
      match writeRawM writeRes (FEED_N_CMD 2) s1 with
      | (some e, s2) => (((), some ("feed command failed: " ++ e)), s2)
      | (none, s2) => (((), none), s2)

/-- `Cut` (src/main.go lines 707-735): the cut-then-feed unit inside an
8-attempt `withRetry`; returns the final error and the transport write
log. -/
def Cut (writeRes openRes : Nat → Option String) :
    Option String × List (List Nat) :=
  let out := withRetry (cutFn writeRes) openRes 8 () []
  (out.1.1.2, out.1.2)

/-- The write log of a `cutFn` retry loop decomposes into per-attempt
segments: every attempt re-sends the cut bytes first, a failed first write
contributes `[CUT_CMD]`, everything else contributes
`[CUT_CMD, FEED_N_CMD 2]`, and a successful overall run ends with a full
`[CUT_CMD, FEED_N_CMD 2]` segment. -/
theorem cutAux_segments (writeRes openRes : Nat → Option String) :
    ∀ (rem i : Nat) (s : List (List Nat)) (acc : Unit × Option String),
      ∃ segs : List (List (List Nat)),
        (withRetryAux (cutFn writeRes) openRes i rem s acc).1.2 =
          s ++ segs.flatten ∧
        segs.length ≤ rem ∧
        (1 ≤ rem → 1 ≤ segs.length) ∧
        (∀ seg ∈ segs, seg = [CUT_CMD] ∨ seg = [CUT_CMD, FEED_N_CMD 2]) ∧
        ((withRetryAux (cutFn writeRes) openRes i rem s acc).1.1.2 = none →
          segs = [] ∨ segs.getLast? = some [CUT_CMD, FEED_N_CMD 2]) := by
  intro rem
  induction rem with
  | zero =>
    intro i s acc
    exact ⟨[], by simp [withRetryAux], by simp,
      fun h => absurd h (by omega), by simp, fun _ => Or.inl rfl⟩
  | succ m ih =>
    intro i s acc
    rcases hw0 : writeRes s.length with _ | e0
    · rcases hw1 : writeRes (s.length + 1) with _ | e1
      · -- both writes succeed: the attempt succeeds immediately
        refine ⟨[[CUT_CMD, FEED_N_CMD 2]], ?_, by simp, by simp, ?_, ?_⟩
        · simp [withRetryAux, cutFn, writeRawM, hw0, hw1]
        · intro seg hseg
          rw [List.mem_singleton] at hseg
          exact Or.inr hseg
        · intro _; right; rfl
      · -- feed write fails
        rcases Nat.eq_zero_or_pos m with hm | hm
        · subst hm
          refine ⟨[[CUT_CMD, FEED_N_CMD 2]], ?_, by simp, by simp, ?_, ?_⟩
          · simp [withRetryAux, cutFn, writeRawM, hw0, hw1]
          · intro seg hseg
            rw [List.mem_singleton] at hseg
            exact Or.inr hseg
          · intro hnone
            simp [withRetryAux, cutFn, writeRawM, hw0, hw1] at hnone
        · have hm' : ¬ m = 0 := by omega
          obtain ⟨segs, hlog, hlen, hlen1, hshape, hdone⟩ :=
            ih (i + 1) (s ++ [CUT_CMD] ++ [FEED_N_CMD 2])
              (nextErr () ("feed command failed: " ++ e1) (openRes i))
          refine ⟨[CUT_CMD, FEED_N_CMD 2] :: segs, ?_, by simp; omega,
            by simp, ?_, ?_⟩
          · simp only [withRetryAux, cutFn, writeRawM, hw0, hw1, hm',
              if_false, List.length_append, List.length_singleton]
            rw [hlog]
            simp
          · intro seg hseg
            rcases List.mem_cons.mp hseg with h | h
            · exact Or.inr h
            · exact hshape seg h
          · intro hnone
            simp only [withRetryAux, cutFn, writeRawM, hw0, hw1, hm',
              if_false, List.length_append, List.length_singleton] at hnone
            rcases hdone hnone with h | h
            · have := hlen1 hm
              rw [h] at this
              simp at this
            · right
              rcases segs with _ | ⟨b, t⟩
              · simp at h
              · rw [List.getLast?_cons_cons]
                exact h
    · -- cut write fails
      rcases Nat.eq_zero_or_pos m with hm | hm
      · subst hm
        refine ⟨[[CUT_CMD]], ?_, by simp, by simp, ?_, ?_⟩
        · simp [withRetryAux, cutFn, writeRawM, hw0]
        · intro seg hseg
          rw [List.mem_singleton] at hseg
          exact Or.inl hseg
        · intro hnone
          simp [withRetryAux, cutFn, writeRawM, hw0] at hnone
      · have hm' : ¬ m = 0 := by omega
        obtain ⟨segs, hlog, hlen, hlen1, hshape, hdone⟩ :=
          ih (i + 1) (s ++ [CUT_CMD])
            (nextErr () ("cut command failed: " ++ e0) (openRes i))
        refine ⟨[CUT_CMD] :: segs, ?_, by simp; omega, by simp, ?_, ?_⟩
        · simp only [withRetryAux, cutFn, writeRawM, hw0, hm', if_false]
          rw [hlog]
          simp
        · intro seg hseg
          rcases List.mem_cons.mp hseg with h | h
          · exact Or.inl h
          · exact hshape seg h
        · intro hnone
          simp only [withRetryAux, cutFn, writeRawM, hw0, hm',
            if_false] at hnone
          rcases hdone hnone with h | h
          · have := hlen1 hm
            rw [h] at this
            simp at this
          · right
            rcases segs with _ | ⟨b, t⟩
            · simp at h
            · rw [List.getLast?_cons_cons]
              exact h

/-- Claim C8: every `Cut()` run writes a sequence of per-attempt units (at
most 8, one per retry attempt), each unit starting from the cut bytes; a
unit is either the truncated `[CUT_CMD]` (first write failed) or the full
ordered pair `[CUT_CMD, FEED_N_CMD 2]`, and a successful `Cut()` ends with
the full pair — exactly two `WriteRaw` calls in order within its final
retry unit.  In particular, when the feed write of the first attempt fails
and the second attempt succeeds, the whole pair is re-sent from the start:
the transport sees cut, feed, cut, feed. -/
theorem c8_cut_two_writes_retry_unit :
    (∀ writeRes openRes : Nat → Option String,
      ∃ segs : List (List (List Nat)),
        (Cut writeRes openRes).2 = segs.flatten ∧
        segs.length ≤ 8 ∧
        (∀ seg ∈ segs, seg = [CUT_CMD] ∨ seg = [CUT_CMD, FEED_N_CMD 2]) ∧
        ((Cut writeRes openRes).1 = none →
          segs.getLast? = some [CUT_CMD, FEED_N_CMD 2])) ∧
    Cut (fun n => if n = 1 then some ("write failed") else none)
        (fun _ => none) =
      (none, [CUT_CMD, FEED_N_CMD 2, CUT_CMD, FEED_N_CMD 2]) := by
  constructor
  · intro writeRes openRes
    obtain ⟨segs, hlog, hlen, hlen1, hshape, hdone⟩ :=
      cutAux_segments writeRes openRes 8 0 [] ((), none)
    refine ⟨segs, ?_, hlen, hshape, ?_⟩
    · rw [Cut, withRetry]
      rw [hlog]
      simp
    · intro hnone
      rw [Cut, withRetry] at hnone
      rcases hdone hnone with h | h
      · have := hlen1 (by omega)
        rw [h] at this
        simp at this
      · exact h
  · decide

/-- Witness for C8: a run whose writes all succeed cuts on the first
attempt; the segment decomposition applies with the success hypothesis
discharged. -/
theorem c8_witness :
    (Cut (fun _ => none) (fun _ => none)).1 = none ∧
    ∃ segs : List (List (List Nat)),
      (Cut (fun _ => none) (fun _ => none)).2 = segs.flatten ∧
      segs.length ≤ 8 ∧
      (∀ seg ∈ segs, seg = [CUT_CMD] ∨ seg = [CUT_CMD, FEED_N_CMD 2]) ∧
      segs.getLast? = some [CUT_CMD, FEED_N_CMD 2] := by
  obtain ⟨segs, h1, h2, h3, h4⟩ :=
    c8_cut_two_writes_retry_unit.1 (fun _ => none) (fun _ => none)
  exact ⟨rfl, segs, h1, h2, h3, h4 rfl⟩

deriving instance DecidableEq for Except

/-- Substring occurrence over character lists (helper for
`strings.Contains`). -/
def subOccurs (pat : List Char) : List Char → Bool
  | [] => pat.isEmpty
  | c :: tail => pat.isPrefixOf (c :: tail) || subOccurs pat tail

/-- `strings.Contains(s, pat)`. -/
def strContains (s pat : String) : Bool := subOccurs pat.toList s.toList

/-- The namespace test used for every element in `Parse`
(src/unnamed/part_001): `strings.Contains(space, "epson-pos")`. -/
def vendorNS (sp : String) : Bool := strContains sp ("epson-pos")

/-- The outcome of `strings.TrimSpace` followed (when nonempty) by
`base64.StdEncoding.DecodeString` on the text of one `xml.CharData` event
— both are Go standard-library calls outside this repository, so the model
represents each character-data token by that outcome: whitespace-only
content, a decode failure with the library's error text, or the decoded
bytes. -/
inductive CData where
  | blank
  | bad (e : String)
  | bytes (bs : List Nat)
deriving DecidableEq, Repr

/-- One token of the `xml.Decoder` stream consumed by `Parse`: start
element (local name, namespace, attributes), character data, end element.
Attribute values carry the outcome of `fmt.Sscanf(value, "%d", &field)`
(`none` = the scan fails and leaves the field unchanged), since `Sscanf`
is a standard-library call. -/
inductive Tok where
  | startElem (name sp : String) (attrs : List (String × Option Int))
  | charData (c : CData)
  | endElem (name sp : String)
deriving DecidableEq, Repr

/-- `InstructionType` (src/unnamed/part_001 lines 12-18). -/
inductive InstructionType where
  | image
  | pulse
  | cut
deriving DecidableEq, Repr

/-- `ImageDecoded` (src/unnamed/part_001 lines 30-34). -/
structure ImageDecoded where
  width : Int
  height : Int
  data : List Nat
deriving DecidableEq, Repr

/-- `Instruction` (src/unnamed/part_001 lines 20-23): a type tag plus the
image payload (`nil` for pulse/cut). -/
structure Instruction where
  itype : InstructionType
  image : Option ImageDecoded
deriving DecidableEq, Repr

/-- The attribute loop of the image start-tag handler
(src/unnamed/part_001 lines 80-87): scan `width`/`height` in order,
leaving a field unchanged (initially 0) when an attribute is absent or its
scan fails. -/
def readDims (attrs : List (String × Option Int)) : Int × Int :=
  attrs.foldl (fun wh a =>
    if a.1 == "width" then
      match a.2 with
      | some v => (v, wh.2)
      | none => wh
    else if a.1 == "height" then
      match a.2 with
      | some v => (wh.1, v)
      | none => wh
    else wh) (0, 0)

/-- The size-mismatch message of the image end-tag handler
(src/unnamed/part_001 lines 119-120). -/
def sizeErrMsg (got : Nat) (expected w h : Int) : String :=
  "image data incomplete: got " ++ toString got ++ " bytes, expected " ++
    toString expected ++ " bytes (width=" ++ toString w ++ ", height=" ++
    toString h ++ ")"

/-- The token loop of `Parse` (src/unnamed/part_001 lines 49-131) over the
remaining token stream; `terr` is the error `decoder.Token()` reports after
the listed tokens (`none` = `io.EOF`), `cur`/`inImage` are the Go loop
variables `currentImage`/`inImage`, and `acc` the instructions gathered so
far.  The `none` arm of the image end-tag handler is unreachable from
`Parse` (the code would dereference a nil pointer there; `inImage` is only
ever set together with `currentImage`). -/
def parseLoop (terr : Option String) :
    List Tok → Option ImageDecoded → Bool → List Instruction →
    Except String (List Instruction)
  | [], _, _, acc =>
    match terr with
    | none => .ok acc
    | some e => .error ("XML syntax error: " ++ e)
  | Tok.startElem name sp attrs :: rest, cur, inImage, acc =>
    if name == "epos-print" && vendorNS sp then
      parseLoop terr rest cur inImage acc
    else if name == "pulse" && vendorNS sp then
      parseLoop terr rest cur inImage
        (acc ++ [⟨InstructionType.pulse, none⟩])
    else if name == "cut" && vendorNS sp then
      parseLoop terr rest cur inImage
        (acc ++ [⟨InstructionType.cut, none⟩])
    else if name == "image" && vendorNS sp then
      parseLoop terr rest
        (some ⟨(readDims attrs).1, (readDims attrs).2, []⟩) true acc
    else
      parseLoop terr rest cur inImage acc
  | Tok.charData CData.blank :: rest, cur, inImage, acc =>
    parseLoop terr rest cur inImage acc
  | Tok.charData (CData.bad e) :: rest, some img, inImage, acc =>
    if inImage then .error ("failed to decode image base64: " ++ e)
    else parseLoop terr rest (some img) inImage acc
  | Tok.charData (CData.bad _) :: rest, none, inImage, acc =>
    parseLoop terr rest none inImage acc
  | Tok.charData (CData.bytes bs) :: rest, some img, inImage, acc =>
    if inImage then
      parseLoop terr rest (some ⟨img.width, img.height, img.data ++ bs⟩)
        inImage acc
    else parseLoop terr rest (some img) inImage acc
  | Tok.charData (CData.bytes _) :: rest, none, inImage, acc =>
    parseLoop terr rest none inImage acc
  | Tok.endElem name sp :: rest, some img, inImage, acc =>
    if name == "image" && vendorNS sp && inImage then
      if (img.data.length : Int) ≠ Int.tdiv img.width 8 * img.height then
        .error (sizeErrMsg img.data.length
          (Int.tdiv img.width 8 * img.height) img.width img.height)
      else
        parseLoop terr rest none false
          (acc ++ [⟨InstructionType.image, some img⟩])
    else
      parseLoop terr rest (some img) inImage acc
  | Tok.endElem name sp :: rest, none, inImage, acc =>
    if name == "image" && vendorNS sp && inImage then
      .error ("image end tag with no open image")
    else
      parseLoop terr rest none inImage acc

/-- `Parse` (src/unnamed/part_001 lines 36-135) on a token stream: start
with no open image and an empty instruction list.  (The revision in
src/epson_parser.go returns `ok` instead of the syntax error on a non-EOF
token error; the part_001 revision is the one matching the rest of the
current tree.) -/
def Parse (toks : List Tok) (terr : Option String) :
    Except String (List Instruction) :=
  parseLoop terr toks none false []

/-- The namespace URI used by the repository's own tests. -/
def EPOS_NS : String := "http://www.epson-pos.com/schemas/2012/10/epos-print"

/-- With a token-stream error pending, the loop can only ever return an
error, whatever state it is in. -/
theorem parseLoop_err_isErr (e : String) :
    ∀ (toks : List Tok) (cur : Option ImageDecoded) (inImage : Bool)
      (acc : List Instruction),
      ∃ msg, parseLoop (some e) toks cur inImage acc = .error msg := by
  intro toks
  induction toks with
  | nil => intro cur inImage acc; exact ⟨"XML syntax error: " ++ e, rfl⟩
  | cons t rest ih =>
    intro cur inImage acc
    cases t with
    | startElem name sp attrs =>
      simp only [parseLoop]
      split_ifs <;> exact ih _ _ _
    | charData c =>
      rcases c with _ | e' | bs <;> rcases cur with _ | img <;>
        simp only [parseLoop] <;>
        first
          | exact ih _ _ _
          | (split_ifs with h <;> first | exact ⟨_, rfl⟩ | exact ih _ _ _)
    | endElem name sp =>
      rcases cur with _ | img <;> simp only [parseLoop] <;>
        split_ifs <;> first | exact ⟨_, rfl⟩ | exact ih _ _ _

/-- If the loop succeeds on a stream ending in `io.EOF`, then on the same
tokens with a pending stream error it returns exactly the wrapped syntax
error. -/
theorem parseLoop_ok_syntax_err (e : String) :
    ∀ (toks : List Tok) (cur : Option ImageDecoded) (inImage : Bool)
      (acc : List Instruction) (r : List Instruction),
      parseLoop none toks cur inImage acc = .ok r →
      parseLoop (some e) toks cur inImage acc =
        .error ("XML syntax error: " ++ e) := by
  intro toks
  induction toks with
  | nil => intro cur inImage acc r _; rfl
  | cons t rest ih =>
    intro cur inImage acc r hok
    cases t with
    | startElem name sp attrs =>
      simp only [parseLoop] at hok ⊢
      split_ifs at hok ⊢ <;> exact ih _ _ _ _ hok
    | charData c =>
      rcases c with _ | e' | bs <;> rcases cur with _ | img <;>
        simp only [parseLoop] at hok ⊢ <;>
        first
          | exact ih _ _ _ _ hok
          | (split_ifs at hok ⊢ <;>
              first | exact absurd hok (by simp) | exact ih _ _ _ _ hok)
    | endElem name sp =>
      rcases cur with _ | img <;> simp only [parseLoop] at hok ⊢ <;>
        split_ifs at hok ⊢ <;>
        first | exact absurd hok (by simp) | exact ih _ _ _ _ hok

/-- Claim C2: for every token stream that ends in a token-stream error
(malformed XML), `Parse` returns an error — never a successful partial
instruction sequence — and whenever the consumed prefix itself parses
cleanly, the returned error is exactly the wrapped underlying token-stream
error. -/
theorem c2_parse_surfaces_syntax_errors (toks : List Tok) (e : String) :
    (∃ msg, Parse toks (some e) = .error msg) ∧
    (∀ r, Parse toks none = .ok r →
      Parse toks (some e) = .error ("XML syntax error: " ++ e)) := by
  constructor
  · exact parseLoop_err_isErr e toks none false []
  · intro r hok
    exact parseLoop_ok_syntax_err e toks none false [] r hok

/-- Witness for C2: a malformed document cut off after an open `pulse`
element surfaces the decoder's error. -/
theorem c2_witness :
    Parse [Tok.startElem ("pulse") EPOS_NS []] (some ("unexpected EOF")) =
      .error ("XML syntax error: " ++ "unexpected EOF") :=
  (c2_parse_surfaces_syntax_errors [Tok.startElem ("pulse") EPOS_NS []]
    ("unexpected EOF")).2 [⟨InstructionType.pulse, none⟩] (by decide)

/-- Chunked character data inside an open image element is base64-decoded
chunk by chunk and concatenated onto the accumulation buffer. -/
theorem parseLoop_bytes_accum (terr : Option String) :
    ∀ (chunks : List (List Nat)) (rest : List Tok) (img : ImageDecoded)
      (acc : List Instruction),
      parseLoop terr
        (chunks.map (fun bs => Tok.charData (CData.bytes bs)) ++ rest)
        (some img) true acc =
      parseLoop terr rest
        (some ⟨img.width, img.height, img.data ++ chunks.flatten⟩) true acc := by
  intro chunks
  induction chunks with
  | nil => intro rest img acc; simp
  | cons bs t ih =>
    intro rest img acc
    simp only [List.map_cons, List.cons_append, parseLoop, if_true,
      List.append_eq]
    rw [ih]
    simp [List.append_assoc]

/-- An `image` start tag in the vendor namespace opens a fresh
accumulation with the scanned dimensions. -/
theorem parseLoop_image_start (terr : Option String) (ns : String)
    (hns : vendorNS ns = true) (attrs : List (String × Option Int))
    (rest : List Tok) (cur : Option ImageDecoded) (inImage : Bool)
    (acc : List Instruction) :
    parseLoop terr (Tok.startElem ("image") ns attrs :: rest) cur inImage acc =
      parseLoop terr rest
        (some ⟨(readDims attrs).1, (readDims attrs).2, []⟩) true acc := by
  have h1 : (("image" : String) == "epos-print") = false := by decide
  have h2 : (("image" : String) == "pulse") = false := by decide
  have h3 : (("image" : String) == "cut") = false := by decide
  have h4 : (("image" : String) == "image") = true := by decide
  simp [parseLoop, h1, h2, h3, h4, hns]

/-- An `image` end tag in the vendor namespace with an open accumulation
validates the byte count against `(width / 8) * height` (Go's truncating
division) and either fails with the size-mismatch error or appends the
image instruction. -/
theorem parseLoop_image_end (terr : Option String) (ns : String)
    (hns : vendorNS ns = true) (rest : List Tok) (img : ImageDecoded)
    (acc : List Instruction) :
    parseLoop terr (Tok.endElem ("image") ns :: rest) (some img) true acc =
      if (img.data.length : Int) ≠ Int.tdiv img.width 8 * img.height then
        .error (sizeErrMsg img.data.length
          (Int.tdiv img.width 8 * img.height) img.width img.height)
      else
        parseLoop terr rest none false
          (acc ++ [⟨InstructionType.image, some img⟩]) := by
  have h4 : (("image" : String) == "image") = true := by decide
  simp [parseLoop, h4, hns]

/-- Counterexample to claim C5 as stated: on
`<image width="-7" height="1"></image>` (no data), `Parse` appends an
`Image` instruction although the accumulated byte length 0 differs from
`(width / 8) * height` computed with *floor* division
(`fdiv (-7) 8 * 1 = -1`); Go's `/` truncates toward zero, giving expected
size 0. -/
theorem c5_counterexample :
    Parse [Tok.startElem ("image") EPOS_NS
        [("width", some (-7)), ("height", some 1)],
      Tok.endElem ("image") EPOS_NS] none =
      .ok [⟨InstructionType.image, some ⟨-7, 1, []⟩⟩] ∧
    ¬ ((([] : List Nat).length : Int) = Int.fdiv (-7) 8 * 1) :=
  ⟨by decide, by decide⟩

/-- Claim C5 (amended: the expected size uses Go's truncating division
`width / 8 * height`, which agrees with floor division for nonnegative
widths): for every image element in the vendor namespace, `Parse` appends
an `Image` instruction if and only if the accumulated decoded byte length
equals `(width / 8) * height` with width and height taken from the
attributes (defaulting to 0); any mismatch fails with an error naming the
actual and expected byte counts — in particular an image declaring
`width=8, height=8` with only 2 decoded bytes fails with the
size-mismatch error. -/
theorem c5_image_size_check (ns : String) (hns : vendorNS ns = true)
    (attrs : List (String × Option Int)) (w h : Int)
    (hdims : readDims attrs = (w, h)) (chunks : List (List Nat)) :
    (Parse (Tok.startElem ("image") ns attrs ::
        (chunks.map (fun bs => Tok.charData (CData.bytes bs)) ++
          [Tok.endElem ("image") ns])) none =
      if (chunks.flatten.length : Int) = Int.tdiv w 8 * h then
        .ok [⟨InstructionType.image, some ⟨w, h, chunks.flatten⟩⟩]
      else
        .error (sizeErrMsg chunks.flatten.length (Int.tdiv w 8 * h) w h)) ∧
    Parse [Tok.startElem ("image") EPOS_NS
        [("width", some 8), ("height", some 8)],
      Tok.charData (CData.bytes [0, 0]), Tok.endElem ("image") EPOS_NS]
      none = .error (sizeErrMsg 2 8 8 8) := by
  refine ⟨?_, by decide⟩
  rw [Parse, parseLoop_image_start none ns hns attrs, hdims]
  rw [parseLoop_bytes_accum none chunks [Tok.endElem ("image") ns]]
  rw [parseLoop_image_end none ns hns]
  by_cases hc : (chunks.flatten.length : Int) = Int.tdiv w 8 * h
  · rw [if_pos hc]
    have hnd : ¬ ((([] ++ chunks.flatten : List Nat).length : Int) ≠
        Int.tdiv w 8 * h) := by
      simpa using hc
    rw [if_neg hnd]
    simp [parseLoop]
  · rw [if_neg hc]
    have hd : (([] ++ chunks.flatten : List Nat).length : Int) ≠
        Int.tdiv w 8 * h := by
      simpa using hc
    rw [if_pos hd]
    simp

/-- Witness for C5 (amended): two one-byte chunks against a declared 8x8
image trip the size check. -/
theorem c5_witness :
    Parse (Tok.startElem ("image") EPOS_NS
        [("width", some 8), ("height", some 8)] ::
      (([[0], [0]] : List (List Nat)).map
        (fun bs => Tok.charData (CData.bytes bs)) ++
        [Tok.endElem ("image") EPOS_NS])) none =
      if ((([[0], [0]] : List (List Nat)).flatten.length : Int)) =
          Int.tdiv 8 8 * 8 then
        .ok [⟨InstructionType.image,
          some ⟨8, 8, ([[0], [0]] : List (List Nat)).flatten⟩⟩]
      else
        .error (sizeErrMsg ([[0], [0]] : List (List Nat)).flatten.length
          (Int.tdiv 8 8 * 8) 8 8) :=
  (c5_image_size_check EPOS_NS (by decide)
    [("width", some 8), ("height", some 8)] 8 8 (by decide) [[0], [0]]).1

/-- Modelled from the claim's words: the number of recognized pulse, cut,
or image elements (start tags) whose namespace contains the vendor
identifier. -/
def recognizedElemCount (toks : List Tok) : Nat :=
  toks.countP (fun t =>
    match t with
    | Tok.startElem name sp _ =>
      (name == "pulse" || name == "cut" || name == "image") && vendorNS sp
    | _ => false)

/-- The instruction kinds `Parse` emits, in document order, computed
without the error/data machinery: a pulse or cut start tag in the vendor
namespace contributes immediately, an image start tag (re)opens the
accumulation, and an image end tag contributes exactly when an
accumulation is open. -/
def recKinds : List Tok → Bool → List InstructionType
  | [], _ => []
  | Tok.startElem name sp _ :: rest, opened =>
    if name == "pulse" && vendorNS sp then
      InstructionType.pulse :: recKinds rest opened
    else if name == "cut" && vendorNS sp then
      InstructionType.cut :: recKinds rest opened
    else if name == "image" && vendorNS sp then
      recKinds rest true
    else
      recKinds rest opened
  | Tok.charData _ :: rest, opened => recKinds rest opened
  | Tok.endElem name sp :: rest, opened =>
    if name == "image" && vendorNS sp && opened then
      InstructionType.image :: recKinds rest false
    else
      recKinds rest opened

/-- A well-formed document with one image element nested inside another:
both start tags are recognized image elements, but `Parse` emits a single
instruction (the inner start tag resets the accumulation; the outer end
tag finds no open image). -/
def nestedImageDoc : List Tok :=
  [Tok.startElem ("epos-print") EPOS_NS [],
   Tok.startElem ("image") EPOS_NS [],
   Tok.startElem ("image") EPOS_NS [],
   Tok.endElem ("image") EPOS_NS,
   Tok.endElem ("image") EPOS_NS,
   Tok.endElem ("epos-print") EPOS_NS]

/-- Counterexample to claim C6 as stated: the nested-image document
parses without error to exactly one instruction, while it contains two
recognized image elements. -/
theorem c6_counterexample :
    Parse nestedImageDoc none =
      .ok [⟨InstructionType.image, some ⟨0, 0, []⟩⟩] ∧
    recognizedElemCount nestedImageDoc = 2 ∧
    ¬ (([⟨InstructionType.image, some ⟨0, 0, []⟩⟩] :
        List Instruction).length = recognizedElemCount nestedImageDoc) :=
  ⟨by decide, by decide, by decide⟩

/-- On success, the parse loop appends exactly the instruction kinds of
`recKinds`, after the instructions already accumulated. -/
theorem parseLoop_kinds :
    ∀ (toks : List Tok) (cur : Option ImageDecoded) (inImage : Bool)
      (acc instrs : List Instruction),
      parseLoop none toks cur inImage acc = .ok instrs →
      instrs.map Instruction.itype =
        acc.map Instruction.itype ++ recKinds toks inImage := by
  intro toks
  induction toks with
  | nil =>
    intro cur inImage acc instrs hok
    simp only [parseLoop] at hok
    injection hok with h
    subst h
    simp [recKinds]
  | cons t rest ih =>
    intro cur inImage acc instrs hok
    cases t with
    | startElem name sp attrs =>
      simp only [parseLoop] at hok
      split_ifs at hok with h1 h2 h3 h4
      · obtain ⟨hn, hv⟩ := Bool.and_eq_true_iff.mp h1
        have hname : name = "epos-print" := by simpa using hn
        subst hname
        rw [ih _ _ _ _ hok]
        have d1 : (("epos-print" : String) == "pulse") = false := by decide
        have d2 : (("epos-print" : String) == "cut") = false := by decide
        have d3 : (("epos-print" : String) == "image") = false := by decide
        simp [recKinds, d1, d2, d3]
      · obtain ⟨hn, hv⟩ := Bool.and_eq_true_iff.mp h2
        have hname : name = "pulse" := by simpa using hn
        subst hname
        rw [ih _ _ _ _ hok]
        have d1 : (("pulse" : String) == "pulse") = true := by decide
        simp [recKinds, d1, hv]
      · obtain ⟨hn, hv⟩ := Bool.and_eq_true_iff.mp h3
        have hname : name = "cut" := by simpa using hn
        subst hname
        rw [ih _ _ _ _ hok]
        have d1 : (("cut" : String) == "pulse") = false := by decide
        have d2 : (("cut" : String) == "cut") = true := by decide
        simp [recKinds, d1, d2, hv]
      · obtain ⟨hn, hv⟩ := Bool.and_eq_true_iff.mp h4
        have hname : name = "image" := by simpa using hn
        subst hname
        rw [ih _ _ _ _ hok]
        have d1 : (("image" : String) == "pulse") = false := by decide
        have d2 : (("image" : String) == "cut") = false := by decide
        have d3 : (("image" : String) == "image") = true := by decide
        simp [recKinds, d1, d2, d3, hv]
      · rw [ih _ _ _ _ hok]
        simp [recKinds, h2, h3, h4]
    | charData c =>
      rcases c with _ | e' | bs <;> rcases cur with _ | img <;>
        simp only [parseLoop] at hok <;>
        first
          | exact ih _ _ _ _ hok
          | (split_ifs at hok <;>
              first | exact absurd hok (by simp) | exact ih _ _ _ _ hok)
    | endElem name sp =>
      rcases cur with _ | img <;> simp only [parseLoop] at hok <;>
        split_ifs at hok with h <;>
        first
          | exact absurd hok (by simp)
          | (rw [ih _ _ _ _ hok]; simp [recKinds, h])

/-- Claim C6 (amended: nested image elements collapse — an image start
tag seen while an image is already open restarts the accumulation instead
of producing its own instruction, so the sequence contains one
instruction per recognized pulse or cut start tag and per image end tag
that closes an open image, in encounter order; elements outside the
vendor namespace are ignored): every document that parses without error
yields exactly the instruction kinds of `recKinds`, and the empty
document yields the empty sequence without error. -/
theorem c6_instruction_sequence :
    (∀ (toks : List Tok) (instrs : List Instruction),
      Parse toks none = .ok instrs →
      instrs.map Instruction.itype = recKinds toks false) ∧
    Parse [] none = .ok ([] : List Instruction) := by
  constructor
  · intro toks instrs hok
    have h := parseLoop_kinds toks none false [] instrs hok
    simpa using h
  · rfl

/-- Witness for C6 (amended): a pulse followed by a cut yields exactly
those two kinds in order. -/
theorem c6_witness :
    ([⟨InstructionType.pulse, none⟩, ⟨InstructionType.cut, none⟩] :
        List Instruction).map Instruction.itype =
      recKinds [Tok.startElem ("pulse") EPOS_NS [],
        Tok.startElem ("cut") EPOS_NS []] false :=
  c6_instruction_sequence.1 _ _ (by decide)

/-- `UsbWriter` (src/unnamed/part_002 lines 19-23): a device path and the
current `io.WriteCloser` (`none` = no active connection); handles are
abstracted to numeric identifiers and the mutex is not modelled. -/
structure UsbWriter where
  path : String
  writer : Option Nat
deriving DecidableEq, Repr

/-- `TcpWriter` (src/unnamed/part_002 lines 25-29): an address and the
current `net.Conn` (`none` = no active connection). -/
structure TcpWriter where
  address : String
  conn : Option Nat
deriving DecidableEq, Repr

/-- `UsbWriter.Open` (src/unnamed/part_002 lines 51-70): if a writer is
already present, warn and return nil without touching it; otherwise call
`os.OpenFile` (its outcome is the oracle `osOpenFile`) and either store
the new handle or wrap the error. -/
def UsbWriter.Open (u : UsbWriter) (osOpenFile : Except String Nat) :
    Except String Unit × UsbWriter :=
  match u.writer with
  | some _ => (.ok (), u)
  | none =>
    match osOpenFile with
    | .error e =>
      (.error ("failed to open USB device " ++ u.path ++ ": " ++ e), u)
    | .ok f => (.ok (), { u with writer := some f })

/-- `TcpWriter.Open` (src/unnamed/part_002 lines 115-134): if a connection
is already present, warn and return nil without touching it; otherwise
call `net.Dial` (oracle `netDial`) and either store the new connection or
wrap the error. -/
def TcpWriter.Open (t : TcpWriter) (netDial : Except String Nat) :
    Except String Unit × TcpWriter :=
  match t.conn with
  | some _ => (.ok (), t)
  | none =>
    match netDial with
    | .error e => (.error ("failed to dial " ++ t.address ++ ": " ++ e), t)
    | .ok c => (.ok (), { t with conn := some c })

/-- Claim C9: for both transport writers, calling `Open` on an instance
that is already open is a no-op: it returns success and leaves the
instance — in particular the existing underlying connection handle —
unchanged, whatever the dial/open oracle would have produced (so no new
connection is established and the old one is not replaced). -/
theorem c9_open_idempotent :
    (∀ (u : UsbWriter) (f : Nat) (r : Except String Nat),
      u.writer = some f → UsbWriter.Open u r = (.ok (), u)) ∧
    (∀ (t : TcpWriter) (c : Nat) (r : Except String Nat),
      t.conn = some c → TcpWriter.Open t r = (.ok (), t)) := by
  constructor
  · intro u f r hu
    simp [UsbWriter.Open, hu]
  · intro t c r ht
    simp [TcpWriter.Open, ht]

/-- Witness for C9: concretely open USB and TCP writers are untouched by
a second `Open`, even one whose underlying dial would fail. -/
theorem c9_witness :
    UsbWriter.Open ⟨"/dev/usb/lp0", some 1⟩ (.ok 2) =
      (.ok (), ⟨"/dev/usb/lp0", some 1⟩) ∧
    TcpWriter.Open ⟨"192.168.1.100:9100", some 3⟩
        (.error ("connection refused")) =
      (.ok (), ⟨"192.168.1.100:9100", some 3⟩) :=
  ⟨c9_open_idempotent.1 _ 1 _ rfl, c9_open_idempotent.2 _ 3 _ rfl⟩
